import Mathlib

/-!
Verification development for the comment-quality analyzer in src/main.py.

The Python source is shallowly embedded below.  Strings are modelled by
Lean strings; each Python helper used by the analyzer (str.strip,
str.rstrip, str.startswith, the substring test of the in operator,
str.split with the first hash, and the regex findall of word tokens) is
re-implemented by structural recursion over the character list so that
every definition is executable and kernel-reducible.  A file is modelled
as its list of physical lines, without trailing newline characters: every
use of a line in the source either strips the line or searches it for
patterns that contain no newline, so dropping the terminator is
behaviour-preserving.
-/

/-- Python str.strip / str.rstrip whitespace test restricted to the ASCII
whitespace characters that occur in source files. -/
def pyWS (c : Char) : Bool :=
  c == ' ' || c == '\t' || c == '\r' || c == '\n'

/-- Python str.rstrip with no argument: drop trailing whitespace. -/
def pyRStrip (s : String) : String :=
  String.mk ((s.toList.reverse.dropWhile pyWS).reverse)

/-- Python str.strip with no argument: drop leading and trailing whitespace. -/
def pyStrip (s : String) : String :=
  String.mk (((s.toList.dropWhile pyWS).reverse.dropWhile pyWS).reverse)

/-- List version of Python str.startswith. -/
def listIsPre : List Char → List Char → Bool
  | [], _ => true
  | _ :: _, [] => false
  | a :: as, b :: bs => a == b && listIsPre as bs

/-- Python str.startswith. -/
def pyStartsWith (s p : String) : Bool :=
  listIsPre p.toList s.toList

/-- Occurrence test for a pattern at some position of a character list. -/
def occursIn (pat : List Char) : List Char → Bool
  | [] => listIsPre pat []
  | c :: cs => listIsPre pat (c :: cs) || occursIn pat cs

/-- Python substring containment, pat in s; also the semantics of
re.search for the literal patterns the analyzer uses. -/
def strContains (s pat : String) : Bool :=
  occursIn pat.toList s.toList

/-- Text after the first hash character, as computed by
line.split(hash, 1)[1] in the source; empty when no hash occurs. -/
def dropToHash : List Char → List Char
  | [] => []
  | c :: cs => if c == '#' then cs else dropToHash cs

/-- String version of dropToHash. -/
def afterFirstHash (s : String) : String :=
  String.mk (dropToHash s.toList)

/-- Word characters of the regex class used by re.findall in the source,
for the ASCII inputs the analyzer processes. -/
def isWordChar (c : Char) : Bool :=
  c.isAlphanum || c == '_'

/-- Accumulating tokenizer: splits a character list into the maximal runs
of word characters, exactly the matches of the word regex in order. -/
def wordTokensAux : List Char → List Char → List String
  | [], acc => if acc.isEmpty then [] else [String.mk acc.reverse]
  | c :: cs, acc =>
    if isWordChar c then
      wordTokensAux cs (c :: acc)
    else
      if acc.isEmpty then wordTokensAux cs [] else
        String.mk acc.reverse :: wordTokensAux cs []

/-- Python re.findall of word runs over a line. -/
def wordTokens (s : String) : List String :=
  wordTokensAux s.toList []

/-- Concatenation map, used for every issue-list aggregation below. -/
def catMap (f : α → List β) : List α → List β
  | [] => []
  | a :: l => f a ++ catMap f l

theorem catMap_append (f : α → List β) (a b : List α) :
    catMap f (a ++ b) = catMap f a ++ catMap f b := by
  induction a with
  | nil => rfl
  | cons x xs ih => simp [catMap, ih]

/-!
The abstract syntax tree.  The analyzer only distinguishes function
definitions (plain and async), class definitions, if statements, bare
expression statements whose value is a string constant (the docstring
shape tested by the helper), and every other node.  The test expression of
an if statement is only ever serialized with ast.dump and measured, so it
is carried as its dump string.  Statement-bearing children are the body
lists (and the orelse list of an if); expression children of a node can
contain none of the node kinds the analyzer reacts to, so they are
omitted from the tree.
-/

inductive PyNode where
  | functionDef (name : String) (lineno : Nat) (body : List PyNode)
  | asyncFunctionDef (name : String) (lineno : Nat) (body : List PyNode)
  | classDef (name : String) (lineno : Nat) (body : List PyNode)
  | ifStmt (lineno : Nat) (testDump : String) (body : List PyNode) (orelse : List PyNode)
  | exprConstStr (lineno : Nat) (value : String)
  | other (lineno : Nat) (children : List PyNode)

/-- Child nodes in the order ast.iter_child_nodes yields the
statement-bearing fields. -/
def children : PyNode → List PyNode
  | .functionDef _ _ b => b
  | .asyncFunctionDef _ _ b => b
  | .classDef _ _ b => b
  | .ifStmt _ _ b o => b ++ o
  | .exprConstStr _ _ => []
  | .other _ cs => cs

mutual

def szNode : PyNode → Nat
  | .functionDef _ _ b => 1 + szList b
  | .asyncFunctionDef _ _ b => 1 + szList b
  | .classDef _ _ b => 1 + szList b
  | .ifStmt _ _ b o => 1 + szList b + szList o
  | .exprConstStr _ _ => 1
  | .other _ cs => 1 + szList cs

def szList : List PyNode → Nat
  | [] => 0
  | n :: ns => szNode n + szList ns

end

theorem szList_append (a b : List PyNode) :
    szList (a ++ b) = szList a + szList b := by
  induction a with
  | nil => simp [szList]
  | cons n ns ih => simp [szList, ih]; omega

theorem szNode_pos (n : PyNode) : 0 < szNode n := by
  cases n <;> simp [szNode]

theorem children_szLt (n : PyNode) : szList (children n) < szNode n := by
  cases n <;> simp [children, szNode, szList, szList_append]

/-- The traversal order of ast.walk: a queue is consumed from the front
and each visited node appends its children at the back, which is a
breadth-first traversal.  The Module root node itself matches none of the
analyzer cases, so the walk is started from the list of top-level
statements. -/
def walkFrom : List PyNode → List PyNode
  | [] => []
  | n :: rest => n :: walkFrom (rest ++ children n)
termination_by q => szList q
decreasing_by
  simp [szList, szList_append]
  have := children_szLt n
  omega

theorem walkFrom_nil : walkFrom [] = [] := by
  simp [walkFrom]

theorem walkFrom_cons (n : PyNode) (rest : List PyNode) :
    walkFrom (n :: rest) = n :: walkFrom (rest ++ children n) := by
  simp [walkFrom]

/-!
Issues and the analyzer.  An issue is the (line, category, message)
triple appended by the detectors.  check_missing_comments re-opens the
analyzed file while visiting a complex conditional (src/main.py line 84),
and the two line-oriented detectors re-open it at their start (lines 111
and 144), so every detector receives the detection-time sequence of disk
lines as an explicit argument, separate from the construction-time
snapshot tree.  The only statement that can raise on well-formed input is
the list indexing lines[node.lineno - 2], so check_missing_comments is
embedded in Except, with an error standing for the IndexError.
-/

/-- A reported finding: line number, category, message. -/
abbrev Issue := Nat × String × String

/-- The docstring extraction helper _extract_docstring: the string value
of the first body statement when that statement is a bare string-literal
expression, and the empty string otherwise. -/
def extract_docstring : List PyNode → String
  | PyNode.exprConstStr _ s :: _ => s
  | _ => ""

/-- Test for an ast.If node, as isinstance(n, ast.If) over a body. -/
def isIfNode : PyNode → Bool
  | PyNode.ifStmt _ _ _ _ => true
  | _ => false

/-- The complexity heuristic of src/main.py line 81: more than 3 direct
body statements, or a nested conditional directly in the body, or a test
expression whose ast.dump serialization exceeds 100 characters. -/
def isComplex (body : List PyNode) (testDump : String) : Bool :=
  decide (3 < body.length) || body.any isIfNode || decide (100 < testDump.length)

/-- The message texts of check_missing_comments. -/
def missingFunMsg (name : String) : String :=
  "Missing docstring for function: " ++ name

/-- Message for a class without docstring. -/
def missingClassMsg (name : String) : String :=
  "Missing docstring for class: " ++ name

/-- Message for an uncommented complex conditional. -/
def complexMsg : String :=
  "Missing comment for complex if statement"

/-- Issues contributed by one visited node, src/main.py lines 68-91.
Function, async function and class definitions are flagged when the
extracted docstring is the empty string; a complex conditional on a line
after the first is flagged when the physical line above it, read from the
detection-time file, does not start with a hash once stripped; a complex
conditional on line 1 is flagged unconditionally; every other node is
skipped.  Reading the preceding line indexes the disk lines and is the
one place an IndexError can arise. -/
def nodeIssuesE (diskLines : List String) : PyNode → Except String (List Issue)
  | PyNode.functionDef name l body =>
    Except.ok (if extract_docstring body = "" then [(l, "function", missingFunMsg name)] else [])
  | PyNode.asyncFunctionDef name l body =>
    Except.ok (if extract_docstring body = "" then [(l, "function", missingFunMsg name)] else [])
  | PyNode.classDef name l body =>
    Except.ok (if extract_docstring body = "" then [(l, "class", missingClassMsg name)] else [])
  | PyNode.ifStmt l dump body _ =>
    if isComplex body dump then
      if 1 < l then
        match diskLines[l - 2]? with
        | some prev =>
          Except.ok (if pyStartsWith (pyStrip prev) "#" then [] else [(l, "complex logic", complexMsg)])
        | none => Except.error "IndexError"
      else
        Except.ok [(l, "complex logic", complexMsg)]
    else
      Except.ok []
  | PyNode.exprConstStr _ _ => Except.ok []
  | PyNode.other _ _ => Except.ok []

/-- Issues accumulated along a node sequence; a raised IndexError aborts
the whole detector call, discarding the issues gathered so far. -/
def issuesAlongE (diskLines : List String) : List PyNode → Except String (List Issue)
  | [] => Except.ok []
  | n :: ns => do
    let a ← nodeIssuesE diskLines n
    let b ← issuesAlongE diskLines ns
    Except.ok (a ++ b)

/-- The missing-documentation detector: visit every node in ast.walk
order over the construction-time tree and accumulate the per-node
issues. -/
def check_missing_comments (tree : List PyNode) (diskLines : List String) :
    Except String (List Issue) :=
  issuesAlongE diskLines (walkFrom tree)

/-!
The style guide and the style-consistency detector.
-/

/-- The style-guide dictionary: the two recognized option keys, plus the
unrecognized keys that still make the Python dict truthy. -/
structure StyleGuide where
  minLen : Option Int
  reqPre : Option String
  extraKeys : List String

/-- Python truthiness of the style-guide dict: empty means no recognized
option and no unrecognized key. -/
def StyleGuide.isEmpty (sg : StyleGuide) : Bool :=
  sg.minLen.isNone && sg.reqPre.isNone && sg.extraKeys.isEmpty

/-- Comment recognition and body extraction of src/main.py lines 113-115:
after rstripping the line, a line whose strip starts with a hash is a
comment, and its body is the text after the first hash, stripped. -/
def commentBody (line : String) : Option String :=
  let r := pyRStrip line
  if pyStartsWith (pyStrip r) "#" then some (pyStrip (afterFirstHash r)) else none

/-- Boolean form of the minimum-length violation on a comment body. -/
def bviolLen (sg : StyleGuide) (b : String) : Bool :=
  match sg.minLen with
  | some m => decide ((b.length : Int) < m)
  | none => false

/-- Boolean form of the required-start violation on a comment body. -/
def bviolPre (sg : StyleGuide) (b : String) : Bool :=
  match sg.reqPre with
  | some p => !(pyStartsWith b p)
  | none => false

/-- The length check of src/main.py lines 118-119. -/
def lenIssues (sg : StyleGuide) (i : Nat) (b : String) : List Issue :=
  match sg.minLen with
  | some m =>
    if (b.length : Int) < m then
      [(i, "length", "Comment is too short (min length: " ++ toString m ++ ")")]
    else []
  | none => []

/-- The required-start check of src/main.py lines 122-123. -/
def preIssues (sg : StyleGuide) (i : Nat) (b : String) : List Issue :=
  match sg.reqPre with
  | some p =>
    if pyStartsWith b p then []
    else [(i, "prefix", "Comment does not start with required prefix: " ++ p)]
  | none => []

/-- Issues of one physical line: nothing for a non-comment line, and the
two independent checks, in source order, for a comment line. -/
def styleLineIssues (sg : StyleGuide) (i : Nat) (line : String) : List Issue :=
  match commentBody line with
  | some b => lenIssues sg i b ++ preIssues sg i b
  | none => []

/-- Scan of the enumerated disk lines, 1-indexed from the given start. -/
def enforceFrom (sg : StyleGuide) : Nat → List String → List Issue
  | _, [] => []
  | i, line :: rest => styleLineIssues sg i line ++ enforceFrom sg (i + 1) rest

/-- The style-consistency detector, src/main.py lines 95-125: an empty
style guide skips the scan; otherwise every line of the detection-time
file is checked. -/
def enforce_comment_style_consistency (sg : StyleGuide) (diskLines : List String) : List Issue :=
  if sg.isEmpty then [] else enforceFrom sg 1 diskLines

/-!
The staleness heuristic.
-/

/-- The fixed changed-line pattern of src/main.py line 142; the regex
escapes the plus sign, so it is a literal text search. -/
def changedPat : String := "result = val + 5"

/-- The per-token test of src/main.py line 157: the token occurs in the
stripped comment line and is longer than 2 characters. -/
def qualTok (check : String) (v : String) : Bool :=
  strContains check v && decide (2 < v.length)

/-- First token of the changed line that triggers the heuristic for a
given stripped comment line; the loop breaks on the first hit. -/
def tokenHit (line check : String) : Option String :=
  (wordTokens line).find? (qualTok check)

/-- The message of the staleness issue. -/
def outdatedMsg (v : String) : String :=
  "Possible outdated comment near changed line. Comment might be related to variable: " ++ v

/-- Issues of one (changed line, window line) pair: the raw window line
is stripped; if it is a comment, the first qualifying token of the
changed line yields one issue on the comment line, and the comment is
flagged at most once. -/
def pairIssues (line raw : String) (k : Nat) : List Issue :=
  let c := pyStrip raw
  if pyStartsWith c "#" then
    match tokenHit line c with
    | some v => [(k + 1, "outdated", outdatedMsg v)]
    | none => []
  else []

/-- The window offsets of src/main.py line 150, range(-3, 4). -/
def offsets : List Int := [-3, -2, -1, 0, 1, 2, 3]

/-- Issues contributed by the window around a changed line at index i:
offsets outside the file bounds are skipped. -/
def windowIssues (diskLines : List String) (i : Nat) (line : String) : List Issue :=
  catMap
    (fun off =>
      let k : Int := (i : Int) + off
      if 0 ≤ k then
        match diskLines[k.toNat]? with
        | some raw => pairIssues line raw k.toNat
        | none => []
      else [])
    offsets

/-- The staleness detector, src/main.py lines 127-161: every line of the
detection-time file that contains the changed-line pattern opens a window
of three lines on each side and flags comment lines in it. -/
def identify_outdated_comments (diskLines : List String) : List Issue :=
  catMap
    (fun i =>
      match diskLines[i]? with
      | some line => if strContains line changedPat then windowIssues diskLines i line else []
      | none => [])
    (List.range diskLines.length)

/-!
Construction, src/main.py lines 17-39.  The file read and the parse are
environment effects; they enter the model as the outcome of the read and
the parse function.  A missing or unreadable file raises the re-raised
read error, a file that does not parse raises the re-raised error of
ast.parse, and on success the object holds the raw text and the parsed
tree.
-/

/-- Failure kinds of the construction-time file read. -/
inductive FileErr where
  | notFound : FileErr
  | unreadable : FileErr

/-- Failure kinds of construction. -/
inductive InitErr where
  | fileAccess : FileErr → InitErr
  | badParse : String → InitErr

/-- The analyzer state after a successful construction. -/
structure CommentQualityAnalyzer where
  source_code : String
  tree : List PyNode

/-- The constructor body: read, then parse, re-raising either failure
before any analysis state exists. -/
def analyzerInit (readRes : Except FileErr String)
    (parseFn : String → Except String (List PyNode)) :
    Except InitErr CommentQualityAnalyzer :=
  match readRes with
  | Except.error e => Except.error (InitErr.fileAccess e)
  | Except.ok content =>
    match parseFn content with
    | Except.error m => Except.error (InitErr.badParse m)
    | Except.ok t => Except.ok { source_code := content, tree := t }

/-!
Claims.
-/

/-- Claim C1, amended: for a function, async function, or class
definition whose first body statement is a bare string-literal expression
with a non-empty value, check_missing_comments contributes no
missing-documentation issue for that node; and whenever the docstring
extraction helper yields the empty string for the node, exactly one issue
is contributed for it, with the declaration line, category function
respectively class, and a message naming the definition.  The amendment
restricts the string-literal case to non-empty values: the source tests
the truthiness of the extracted docstring, so an empty string literal is
flagged although it is a bare string-literal first statement. -/
theorem c1_docstring_gate :
    (∀ (diskLines : List String) (name : String) (l el : Nat) (s : String) (rest : List PyNode),
       s ≠ "" →
       nodeIssuesE diskLines (PyNode.functionDef name l (PyNode.exprConstStr el s :: rest)) = Except.ok [] ∧
       nodeIssuesE diskLines (PyNode.asyncFunctionDef name l (PyNode.exprConstStr el s :: rest)) = Except.ok [] ∧
       nodeIssuesE diskLines (PyNode.classDef name l (PyNode.exprConstStr el s :: rest)) = Except.ok []) ∧
    (∀ (diskLines : List String) (name : String) (l : Nat) (body : List PyNode),
       extract_docstring body = "" →
       nodeIssuesE diskLines (PyNode.functionDef name l body) =
         Except.ok [(l, "function", missingFunMsg name)] ∧
       nodeIssuesE diskLines (PyNode.asyncFunctionDef name l body) =
         Except.ok [(l, "function", missingFunMsg name)] ∧
       nodeIssuesE diskLines (PyNode.classDef name l body) =
         Except.ok [(l, "class", missingClassMsg name)]) := by
  constructor
  · intro diskLines name l el s rest hs
    refine ⟨?_, ?_, ?_⟩ <;> simp [nodeIssuesE, extract_docstring, hs]
  · intro diskLines name l body hb
    refine ⟨?_, ?_, ?_⟩ <;> simp [nodeIssuesE, hb]

/-- Witness for C1: a function with the docstring doc is not flagged. -/
theorem c1_witness :
    nodeIssuesE [] (PyNode.functionDef "f" 1 [PyNode.exprConstStr 1 "doc"]) = Except.ok [] :=
  (c1_docstring_gate.1 [] "f" 1 1 "doc" [] (by decide)).1

/-- Counterexample for C1 as stated: in the two-line file defining f with
the empty string literal as its entire body, the first body statement is
a bare string-literal expression, yet check_missing_comments flags the
function, because the extracted docstring is empty and the source tests
its truthiness. -/
theorem c1_counterexample :
    extract_docstring [PyNode.exprConstStr 2 ""] = "" ∧
    check_missing_comments [PyNode.functionDef "f" 1 [PyNode.exprConstStr 2 ""]]
        ["def f():", "    \"\""] =
      Except.ok [(1, "function", missingFunMsg "f")] ∧
    ¬ check_missing_comments [PyNode.functionDef "f" 1 [PyNode.exprConstStr 2 ""]]
        ["def f():", "    \"\""] =
      Except.ok ([] : List Issue) := by
  have h2 : check_missing_comments [PyNode.functionDef "f" 1 [PyNode.exprConstStr 2 ""]]
      ["def f():", "    \"\""] = Except.ok [(1, "function", missingFunMsg "f")] := by
    simp [check_missing_comments, walkFrom_cons, walkFrom_nil, children, issuesAlongE,
      nodeIssuesE, extract_docstring]
    rfl
  refine ⟨rfl, h2, ?_⟩
  rw [h2]
  intro h
  injection h with h
  exact List.cons_ne_nil _ _ h

/-- Claim C3: for an if node classified as complex, when its declaration
line is after line 1 and the preceding physical line exists among the
disk lines, the node is flagged exactly when the stripped preceding line
does not start with a hash; a complex conditional declared on line 1 is
flagged unconditionally, whatever the disk lines hold. -/
theorem c3_complex_preceding_comment :
    ∀ (diskLines : List String) (l : Nat) (dump : String) (body orelse : List PyNode)
      (prev : String),
    isComplex body dump = true →
    ((1 < l → diskLines[l - 2]? = some prev →
        nodeIssuesE diskLines (PyNode.ifStmt l dump body orelse) =
          Except.ok (if pyStartsWith (pyStrip prev) "#" then []
                     else [(l, "complex logic", complexMsg)])) ∧
     (l = 1 →
        nodeIssuesE diskLines (PyNode.ifStmt l dump body orelse) =
          Except.ok [(1, "complex logic", complexMsg)])) := by
  intro diskLines l dump body orelse prev hc
  constructor
  · intro hl hprev
    simp [nodeIssuesE, hc, hl, hprev]
  · intro hl
    subst hl
    simp [nodeIssuesE, hc]

/-- Witness for C3: a conditional with a 101-character test dump on line
2, with a non-comment line above it, is flagged. -/
theorem c3_witness :
    nodeIssuesE ["x = 1", "if q:"] (PyNode.ifStmt 2 (String.mk (List.replicate 101 'q')) [] []) =
      Except.ok [(2, "complex logic", complexMsg)] := by
  have h := (c3_complex_preceding_comment ["x = 1", "if q:"] 2 (String.mk (List.replicate 101 'q'))
    [] [] "x = 1" (by decide)).1 (by decide) rfl
  simpa using h

/-- Claim C4: an if node is classified complex exactly when its direct
body has more than 3 statements, or its direct body contains a nested
conditional, or the structural dump of its test expression is longer than
100 characters; a node that is not complex contributes no complex-logic
issue. -/
theorem c4_complex_classification :
    ∀ (diskLines : List String) (l : Nat) (dump : String) (body orelse : List PyNode),
    (isComplex body dump = false →
       nodeIssuesE diskLines (PyNode.ifStmt l dump body orelse) = Except.ok []) ∧
    (isComplex body dump = true ↔
       (3 < body.length ∨ (∃ n ∈ body, isIfNode n = true) ∨ 100 < dump.length)) := by
  intro diskLines l dump body orelse
  constructor
  · intro hc
    simp [nodeIssuesE, hc]
  · simp [isComplex, List.any_eq_true, or_assoc]

/-- Witness for C4: a conditional with one body statement, no nested if,
and a 1-character dump is not complex and is not flagged. -/
theorem c4_witness :
    nodeIssuesE [] (PyNode.ifStmt 3 "q" [PyNode.other 4 []] []) = Except.ok [] :=
  (c4_complex_classification [] 3 "q" [PyNode.other 4 []] []).1 (by decide)

/-- Claim C6: construction fails exactly when the file read fails (with
the file-access kind) or the content does not parse (with the parse-error
kind); no analyzer results in either failure case, and a successful
construction holds the raw text and the parsed tree. -/
theorem c6_construction :
    ∀ (readRes : Except FileErr String) (parseFn : String → Except String (List PyNode)),
    (∀ e, readRes = Except.error e →
       analyzerInit readRes parseFn = Except.error (InitErr.fileAccess e)) ∧
    (∀ c m, readRes = Except.ok c → parseFn c = Except.error m →
       analyzerInit readRes parseFn = Except.error (InitErr.badParse m)) ∧
    (∀ c t, readRes = Except.ok c → parseFn c = Except.ok t →
       analyzerInit readRes parseFn =
         Except.ok { source_code := c, tree := t : CommentQualityAnalyzer }) ∧
    ((∃ a, analyzerInit readRes parseFn = Except.ok a) ↔
       (∃ c t, readRes = Except.ok c ∧ parseFn c = Except.ok t)) := by
  intro readRes parseFn
  refine ⟨?_, ?_, ?_, ?_⟩
  · intro e he; subst he; rfl
  · intro c m hc hm; subst hc; simp [analyzerInit, hm]
  · intro c t hc ht; subst hc; simp [analyzerInit, ht]
  · constructor
    · rintro ⟨a, ha⟩
      cases hr : readRes with
      | error e => rw [hr] at ha; simp [analyzerInit] at ha
      | ok c =>
        cases hp : parseFn c with
        | error m => rw [hr] at ha; simp [analyzerInit, hp] at ha
        | ok t => exact ⟨c, t, rfl, hp⟩
    · rintro ⟨c, t, hc, ht⟩
      subst hc
      refine ⟨{ source_code := c, tree := t }, ?_⟩
      simp [analyzerInit, ht]

/-- Witness for C6: a readable file holding one assignment that parses to
a single other statement constructs successfully and snapshots both. -/
theorem c6_witness :
    analyzerInit (Except.ok "x = 1") (fun _ => Except.ok [PyNode.other 1 []]) =
      Except.ok { source_code := "x = 1", tree := [PyNode.other 1 []] } :=
  (c6_construction (Except.ok "x = 1") (fun _ => Except.ok [PyNode.other 1 []])).2.2.1
    "x = 1" [PyNode.other 1 []] rfl rfl

/-!
Counting machinery for the style checker: the number of issues the
detector reports for a given line number and category.
-/

/-- Number of issues in an output list that carry the given line number
and category. -/
def countAt (out : List Issue) (ln : Nat) (cat : String) : Nat :=
  (out.filter (fun t => t.1 == ln && t.2.1 == cat)).length

/-- The line violates the minimum-length option: it is a comment whose
body is shorter than the configured minimum. -/
def lineLenViol (sg : StyleGuide) (line : String) : Bool :=
  match commentBody line with
  | some b => bviolLen sg b
  | none => false

/-- The line violates the required-start option: it is a comment whose
body does not start with the configured text. -/
def linePreViol (sg : StyleGuide) (line : String) : Bool :=
  match commentBody line with
  | some b => bviolPre sg b
  | none => false

theorem countAt_append (a b : List Issue) (ln : Nat) (cat : String) :
    countAt (a ++ b) ln cat = countAt a ln cat + countAt b ln cat := by
  simp [countAt, List.filter_append]

theorem countAt_lenIssues_len (sg : StyleGuide) (i : Nat) (b : String) :
    countAt (lenIssues sg i b) i "length" = if bviolLen sg b then 1 else 0 := by
  cases hm : sg.minLen with
  | none => simp [lenIssues, bviolLen, hm, countAt]
  | some m =>
    by_cases hc : (b.length : Int) < m <;> simp [lenIssues, bviolLen, hm, hc, countAt]

theorem countAt_lenIssues_ne_cat (sg : StyleGuide) (i ln : Nat) (b cat : String)
    (h : cat ≠ "length") : countAt (lenIssues sg i b) ln cat = 0 := by
  cases hm : sg.minLen with
  | none => simp [lenIssues, hm, countAt]
  | some m =>
    by_cases hc : (b.length : Int) < m <;> simp [lenIssues, hm, hc, countAt, Ne.symm h]

theorem countAt_lenIssues_ne_line (sg : StyleGuide) (i ln : Nat) (b cat : String)
    (h : ln ≠ i) : countAt (lenIssues sg i b) ln cat = 0 := by
  cases hm : sg.minLen with
  | none => simp [lenIssues, hm, countAt]
  | some m =>
    by_cases hc : (b.length : Int) < m <;> simp [lenIssues, hm, hc, countAt, Ne.symm h]

theorem countAt_preIssues_pre (sg : StyleGuide) (i : Nat) (b : String) :
    countAt (preIssues sg i b) i "prefix" = if bviolPre sg b then 1 else 0 := by
  cases hm : sg.reqPre with
  | none => simp [preIssues, bviolPre, hm, countAt]
  | some p =>
    by_cases hc : pyStartsWith b p <;> simp [preIssues, bviolPre, hm, hc, countAt]

theorem countAt_preIssues_ne_cat (sg : StyleGuide) (i ln : Nat) (b cat : String)
    (h : cat ≠ "prefix") : countAt (preIssues sg i b) ln cat = 0 := by
  cases hm : sg.reqPre with
  | none => simp [preIssues, hm, countAt]
  | some p =>
    by_cases hc : pyStartsWith b p <;> simp [preIssues, hm, hc, countAt, Ne.symm h]

theorem countAt_preIssues_ne_line (sg : StyleGuide) (i ln : Nat) (b cat : String)
    (h : ln ≠ i) : countAt (preIssues sg i b) ln cat = 0 := by
  cases hm : sg.reqPre with
  | none => simp [preIssues, hm, countAt]
  | some p =>
    by_cases hc : pyStartsWith b p <;> simp [preIssues, hm, hc, countAt, Ne.symm h]

theorem countAt_styleLine_ne_line (sg : StyleGuide) (i ln : Nat) (line cat : String)
    (h : ln ≠ i) : countAt (styleLineIssues sg i line) ln cat = 0 := by
  cases hb : commentBody line with
  | none => simp [styleLineIssues, hb, countAt]
  | some b =>
    simp [styleLineIssues, hb, countAt_append,
      countAt_lenIssues_ne_line sg i ln b cat h, countAt_preIssues_ne_line sg i ln b cat h]

theorem countAt_styleLine_len (sg : StyleGuide) (i : Nat) (line : String) :
    countAt (styleLineIssues sg i line) i "length" =
      if lineLenViol sg line then 1 else 0 := by
  cases hb : commentBody line with
  | none => simp [styleLineIssues, lineLenViol, hb, countAt]
  | some b =>
    simp [styleLineIssues, lineLenViol, hb, countAt_append, countAt_lenIssues_len,
      countAt_preIssues_ne_cat sg i i b "length" (by decide)]

theorem countAt_styleLine_pre (sg : StyleGuide) (i : Nat) (line : String) :
    countAt (styleLineIssues sg i line) i "prefix" =
      if linePreViol sg line then 1 else 0 := by
  cases hb : commentBody line with
  | none => simp [styleLineIssues, linePreViol, hb, countAt]
  | some b =>
    simp [styleLineIssues, linePreViol, hb, countAt_append, countAt_preIssues_pre,
      countAt_lenIssues_ne_cat sg i i b "prefix" (by decide)]

theorem countAt_enforceFrom_lt (sg : StyleGuide) (cat : String) :
    ∀ (ls : List String) (start ln : Nat), ln < start →
      countAt (enforceFrom sg start ls) ln cat = 0 := by
  intro ls
  induction ls with
  | nil => intro start ln h; simp [enforceFrom, countAt]
  | cons l t ih =>
    intro start ln h
    simp [enforceFrom, countAt_append,
      countAt_styleLine_ne_line sg start ln l cat (by omega), ih (start + 1) ln (by omega)]

theorem countAt_enforceFrom_at (sg : StyleGuide) (cat : String) :
    ∀ (ls : List String) (i start : Nat), i < ls.length →
      countAt (enforceFrom sg start ls) (start + i) cat =
        countAt (styleLineIssues sg (start + i) (ls.getD i "")) (start + i) cat := by
  intro ls
  induction ls with
  | nil => intro i start h; simp at h
  | cons l t ih =>
    intro i start h
    cases i with
    | zero =>
      simp only [enforceFrom, countAt_append, Nat.add_zero, List.getD_cons_zero]
      rw [countAt_enforceFrom_lt sg cat t (start + 1) start (by omega)]
      simp
    | succ j =>
      have hlt : j < t.length := by
        simpa using Nat.lt_of_succ_lt_succ (by simpa [List.length_cons] using h)
      simp only [enforceFrom, countAt_append, List.getD_cons_succ]
      rw [countAt_styleLine_ne_line sg start (start + (j + 1)) l cat (by omega)]
      have e : start + (j + 1) = (start + 1) + j := by omega
      rw [e, ih j (start + 1) hlt]
      simp

theorem lineLenViol_no_option (sg : StyleGuide) (h1 : sg.minLen = none) (x : String) :
    lineLenViol sg x = false := by
  cases hb : commentBody x <;> simp [lineLenViol, hb, bviolLen, h1]

theorem linePreViol_no_option (sg : StyleGuide) (h2 : sg.reqPre = none) (x : String) :
    linePreViol sg x = false := by
  cases hb : commentBody x <;> simp [linePreViol, hb, bviolPre, h2]

theorem styleLine_no_options (sg : StyleGuide) (h1 : sg.minLen = none)
    (h2 : sg.reqPre = none) (i : Nat) (line : String) :
    styleLineIssues sg i line = [] := by
  cases hb : commentBody line <;>
    simp [styleLineIssues, hb, lenIssues, preIssues, h1, h2]

theorem enforceFrom_no_options (sg : StyleGuide) (h1 : sg.minLen = none)
    (h2 : sg.reqPre = none) :
    ∀ (ls : List String) (start : Nat), enforceFrom sg start ls = [] := by
  intro ls
  induction ls with
  | nil => intro start; simp [enforceFrom]
  | cons l t ih =>
    intro start
    simp [enforceFrom, styleLine_no_options sg h1 h2 start l, ih (start + 1)]

/-- Claim C2: with no recognized option set the style checker returns no
issue for any file content; and in general, for every physical line i of
the detection-time file (1-indexed as i + 1), the output contains exactly
one length-category issue on that line when the line is a comment, the
minimum length is configured and the body is shorter, and none otherwise,
and independently exactly one prefix-category issue on that line when the
required start is configured and the comment body does not begin with it,
and none otherwise; non-comment lines contribute nothing, and a single
comment line can thus yield zero, one, or two issues. -/
theorem c2_style_checker :
    ∀ (sg : StyleGuide) (diskLines : List String),
    (sg.minLen = none → sg.reqPre = none →
       enforce_comment_style_consistency sg diskLines = []) ∧
    (∀ i, i < diskLines.length →
       countAt (enforce_comment_style_consistency sg diskLines) (i + 1) "length" =
         (if lineLenViol sg (diskLines.getD i "") then 1 else 0) ∧
       countAt (enforce_comment_style_consistency sg diskLines) (i + 1) "prefix" =
         (if linePreViol sg (diskLines.getD i "") then 1 else 0)) := by
  intro sg diskLines
  constructor
  · intro h1 h2
    unfold enforce_comment_style_consistency
    split
    · rfl
    · exact enforceFrom_no_options sg h1 h2 diskLines 1
  · intro i hi
    by_cases hE : sg.isEmpty = true
    · have hparts : (sg.minLen = none ∧ sg.reqPre = none) ∧ sg.extraKeys = [] := by
        simpa [StyleGuide.isEmpty, Bool.and_eq_true, Option.isNone_iff_eq_none] using hE
      have he : enforce_comment_style_consistency sg diskLines = [] := by
        simp [enforce_comment_style_consistency, hE]
      rw [he]
      constructor
      · simp [countAt, lineLenViol_no_option sg hparts.1.1]
      · simp [countAt, linePreViol_no_option sg hparts.1.2]
    · have he : enforce_comment_style_consistency sg diskLines =
          enforceFrom sg 1 diskLines := by
        simp [enforce_comment_style_consistency, hE]
      rw [he]
      have e : i + 1 = 1 + i := by omega
      rw [e]
      constructor
      · rw [countAt_enforceFrom_at sg "length" diskLines i 1 hi,
          countAt_styleLine_len]
      · rw [countAt_enforceFrom_at sg "prefix" diskLines i 1 hi,
          countAt_styleLine_pre]

/-- Witness for C2: with minimum length 10 and required start TODO:, the
short comment hash-ok on line 1 is counted once for each category. -/
theorem c2_witness :
    countAt (enforce_comment_style_consistency ⟨some 10, some "TODO:", []⟩ ["# ok"]) 1 "length" = 1 ∧
    countAt (enforce_comment_style_consistency ⟨some 10, some "TODO:", []⟩ ["# ok"]) 1 "prefix" = 1 := by
  have h := (c2_style_checker ⟨some 10, some "TODO:", []⟩ ["# ok"]).2 0 (by decide)
  refine ⟨?_, ?_⟩
  · have h1 := h.1
    rw [show lineLenViol ⟨some 10, some "TODO:", []⟩ (["# ok"].getD 0 "") = true from by decide] at h1
    simpa using h1
  · have h2 := h.2
    rw [show linePreViol ⟨some 10, some "TODO:", []⟩ (["# ok"].getD 0 "") = true from by decide] at h2
    simpa using h2

/-- First-match property of List.find?: a found element satisfies the
test and everything before it fails the test. -/
theorem find?_first {α : Type _} (p : α → Bool) :
    ∀ (l : List α) (v : α), l.find? p = some v →
      p v = true ∧ ∃ pre post, l = pre ++ v :: post ∧ ∀ w ∈ pre, p w = false := by
  intro l
  induction l with
  | nil => intro v h; simp at h
  | cons a t ih =>
    intro v h
    by_cases hp : p a
    · rw [List.find?_cons_of_pos _ hp] at h
      cases h
      exact ⟨hp, [], t, rfl, by simp⟩
    · rw [List.find?_cons_of_neg _ (by simpa using hp)] at h
      obtain ⟨hv, pre, post, hsplit, hpre⟩ := ih v h
      refine ⟨hv, a :: pre, post, by simp [hsplit], ?_⟩
      intro w hw
      rcases List.mem_cons.mp hw with hw | hw
      · subst hw; simpa using hp
      · exact hpre w hw

/-- Claim C5: for a changed line at index i of the detection-time file
and a window index k within three lines of it that holds a comment, the
pair contributes exactly one outdated issue, on the comment line, naming
the first word token of the changed line that is longer than 2 characters
and occurs in the stripped comment, with no further token checked; the
pair contributes nothing when no token qualifies.  In particular the
four-line file with a comment mentioning val three lines above the line
result = val + 5 yields exactly one issue citing val. -/
theorem c5_staleness_pairs :
    (∀ (diskLines : List String) (i k : Nat) (line raw : String),
       diskLines[i]? = some line → strContains line changedPat = true →
       (i : Int) - 3 ≤ (k : Int) → (k : Int) ≤ (i : Int) + 3 →
       diskLines[k]? = some raw → pyStartsWith (pyStrip raw) "#" = true →
       (∀ v, tokenHit line (pyStrip raw) = some v →
          pairIssues line raw k = [(k + 1, "outdated", outdatedMsg v)] ∧
          qualTok (pyStrip raw) v = true ∧
          ∃ pre post, wordTokens line = pre ++ v :: post ∧
            ∀ w ∈ pre, qualTok (pyStrip raw) w = false) ∧
       (tokenHit line (pyStrip raw) = none →
          pairIssues line raw k = [] ∧
          ∀ w ∈ wordTokens line, qualTok (pyStrip raw) w = false)) ∧
    identify_outdated_comments ["# touches val", "", "", "result = val + 5"] =
      [(1, "outdated", outdatedMsg "val")] := by
  constructor
  · intro diskLines i k line raw hline hpat hlo hhi hraw hcomment
    constructor
    · intro v hv
      refine ⟨by simp [pairIssues, hcomment, hv], ?_, ?_⟩
      · exact (find?_first (qualTok (pyStrip raw)) (wordTokens line) v hv).1
      · exact (find?_first (qualTok (pyStrip raw)) (wordTokens line) v hv).2
    · intro hv
      refine ⟨by simp [pairIssues, hcomment, hv], ?_⟩
      intro w hw
      have := List.find?_eq_none.mp hv w hw
      simpa using this
  · decide

/-- Witness for C5: the comment three lines above the changed line is
flagged once, citing val, the first qualifying token of the changed
line. -/
theorem c5_witness :
    pairIssues "result = val + 5" "# touches val" 0 = [(1, "outdated", outdatedMsg "val")] := by
  have h := ((c5_staleness_pairs.1 ["# touches val", "", "", "result = val + 5"] 3 0
    "result = val + 5" "# touches val" rfl (by decide) (by decide) (by decide) rfl
    (by decide)).1 "val" (by decide)).1
  simpa using h

/-- Claim C9, amended: a comment line that itself contains the
changed-line pattern is both the matching line and a comment at offset 0
of its own window, so the detector flags the comment line itself, citing
the first word token of the line that is longer than 2 characters and
occurs in the stripped line; for the single-line file holding only the
plain comment with the pattern, that token is result.  The amendment
replaces the unconditional citation of result by the first qualifying
token: a word of the comment before the pattern is cited instead when it
qualifies first. -/
theorem c9_self_window :
    (∀ (line v : String),
       pyStartsWith (pyStrip line) "#" = true →
       strContains line changedPat = true →
       tokenHit line (pyStrip line) = some v →
       identify_outdated_comments [line] = [(1, "outdated", outdatedMsg v)]) ∧
    identify_outdated_comments ["# result = val + 5"] =
      [(1, "outdated", outdatedMsg "result")] := by
  constructor
  · intro line v hstart hpat htok
    simp [identify_outdated_comments, windowIssues, offsets, catMap, pairIssues,
      List.range_succ, hpat, hstart, htok]
  · decide

/-- Witness for C9: a single comment line with a qualifying token before
the pattern is flagged on itself. -/
theorem c9_witness :
    identify_outdated_comments ["# old result = val + 5 stays"] =
      [(1, "outdated", outdatedMsg "old")] :=
  c9_self_window.1 "# old result = val + 5 stays" "old" (by decide) (by decide) (by decide)

/-- Counterexample for C9 as stated: the single comment line with the
word note before the pattern is flagged, but the cited token is note, the
first qualifying token of the line, not result. -/
theorem c9_counterexample :
    identify_outdated_comments ["# note result = val + 5"] =
      [(1, "outdated", outdatedMsg "note")] ∧
    outdatedMsg "note" ≠ outdatedMsg "result" := by
  constructor <;> decide

/-!
Totality of the detectors.  enforce_comment_style_consistency and
identify_outdated_comments are plain functions into issue lists, so they
return a list on every input by construction.  check_missing_comments can
only fail at the indexing of the preceding line, and that index is in
bounds whenever every if node of the snapshot tree carries a line number
within the detection-time line count, which holds for every syntactically
valid file read unchanged.
-/

/-- Well-formedness tying the snapshot tree to the disk lines: every
conditional visited by the walk is declared on an existing line. -/
def wfIfLines (tree : List PyNode) (diskLines : List String) : Prop :=
  ∀ l dump body orelse, PyNode.ifStmt l dump body orelse ∈ walkFrom tree →
    l ≤ diskLines.length

theorem okE_exists (e : Except String (List Issue)) (h : e.isOk = true) :
    ∃ out, e = Except.ok out := by
  cases e with
  | ok a => exact ⟨a, rfl⟩
  | error m => simp [Except.isOk, Except.toBool] at h

theorem nodeIssuesE_ok (diskLines : List String) (n : PyNode)
    (h : ∀ l d b o, n = PyNode.ifStmt l d b o → l ≤ diskLines.length) :
    (nodeIssuesE diskLines n).isOk = true := by
  cases n with
  | functionDef name l b => rfl
  | asyncFunctionDef name l b => rfl
  | classDef name l b => rfl
  | exprConstStr l s => rfl
  | other l cs => rfl
  | ifStmt l d b o =>
    have hl := h l d b o rfl
    by_cases hc : isComplex b d
    · by_cases h1 : 1 < l
      · have hidx : l - 2 < diskLines.length := by omega
        simp only [nodeIssuesE, hc, if_true, h1, List.getElem?_eq_getElem hidx]
        rfl
      · simp only [nodeIssuesE, hc, if_true, h1, if_false]
        rfl
    · simp only [nodeIssuesE, hc, if_false]
      rfl

theorem issuesAlongE_ok (diskLines : List String) :
    ∀ (l : List PyNode), (∀ n ∈ l, (nodeIssuesE diskLines n).isOk = true) →
      (issuesAlongE diskLines l).isOk = true := by
  intro l
  induction l with
  | nil => intro _; rfl
  | cons n ns ih =>
    intro h
    obtain ⟨a, ha⟩ := okE_exists _ (h n (by simp))
    obtain ⟨b, hb⟩ := okE_exists _ (ih (fun m hm => h m (by simp [hm])))
    simp only [issuesAlongE, ha, hb]
    rfl

/-- Claim C7: on a well-formed snapshot the missing-documentation
detector returns an issue list rather than raising; an empty style guide
is a silently handled skip; and the nodes the walk cannot classify, the
other statements and bare string expressions, contribute nothing rather
than failing.  The style and staleness detectors are total functions into
issue lists by their types, so they return a list on every input. -/
theorem c7_detectors_total :
    ∀ (tree : List PyNode) (diskLines : List String) (sg : StyleGuide),
    wfIfLines tree diskLines →
    (∃ out, check_missing_comments tree diskLines = Except.ok out) ∧
    (sg.isEmpty = true → enforce_comment_style_consistency sg diskLines = []) ∧
    (∀ l cs, nodeIssuesE diskLines (PyNode.other l cs) = Except.ok []) ∧
    (∀ l s, nodeIssuesE diskLines (PyNode.exprConstStr l s) = Except.ok []) := by
  intro tree diskLines sg hwf
  refine ⟨?_, ?_, fun l cs => rfl, fun l s => rfl⟩
  · apply okE_exists
    apply issuesAlongE_ok
    intro n hn
    apply nodeIssuesE_ok
    intro l d b o he
    exact hwf l d b o (he ▸ hn)
  · intro hE
    simp [enforce_comment_style_consistency, hE]

/-- Witness for C7: a one-line file whose only statement is a
conditional on line 1 is analyzed without an error. -/
theorem c7_witness :
    ∃ out, check_missing_comments [PyNode.ifStmt 1 "q" [] []] ["if q: pass"] =
      Except.ok out := by
  refine (c7_detectors_total [PyNode.ifStmt 1 "q" [] []] ["if q: pass"]
    ⟨none, none, []⟩ ?_).1
  intro l d b o hmem
  simp [walkFrom_cons, walkFrom_nil, children] at hmem
  simp [hmem.1]

/-- Claim C8, amended: every detector is a pure function of the snapshot
tree taken at construction, the line sequence read from disk when the
detector runs, and the style guide; two runs agreeing on those inputs
return identical ordered issue lists, with no further environment
dependency.  The amendment adds the detection-time disk content to the
determining inputs: each detector re-opens the analyzed file when it is
invoked (src/main.py lines 84, 111 and 144), so a file rewritten between
construction and detection changes the output even though the
construction-time read was identical. -/
theorem c8_detector_inputs :
    ∀ (tree tree2 : List PyNode) (diskLines diskLines2 : List String) (sg sg2 : StyleGuide),
    tree = tree2 → diskLines = diskLines2 → sg = sg2 →
    check_missing_comments tree diskLines = check_missing_comments tree2 diskLines2 ∧
    enforce_comment_style_consistency sg diskLines =
      enforce_comment_style_consistency sg2 diskLines2 ∧
    identify_outdated_comments diskLines = identify_outdated_comments diskLines2 := by
  intro tree tree2 diskLines diskLines2 sg sg2 h1 h2 h3
  subst h1; subst h2; subst h3
  exact ⟨rfl, rfl, rfl⟩

/-- Witness for C8: two runs over the same snapshot, disk lines and
style guide agree on all three detectors. -/
theorem c8_witness :
    check_missing_comments [] ["# a"] = check_missing_comments [] ["# a"] ∧
    enforce_comment_style_consistency ⟨some 3, none, []⟩ ["# a"] =
      enforce_comment_style_consistency ⟨some 3, none, []⟩ ["# a"] ∧
    identify_outdated_comments ["# a"] = identify_outdated_comments ["# a"] :=
  c8_detector_inputs [] [] ["# a"] ["# a"] ⟨some 3, none, []⟩ ⟨some 3, none, []⟩ rfl rfl rfl

/-- Counterexample for C8 as stated: both runs are constructed from the
identical content, the empty program, with the identical style guide
requiring comments of length at least 5, and the snapshot is the same
empty tree; only the on-disk file visible when the detector runs differs
between the runs, and the style checker returns different issue lists,
because it re-opens the file at src/main.py line 111. -/
theorem c8_counterexample :
    ¬ enforce_comment_style_consistency ⟨some 5, none, []⟩ ["# hi"] =
       enforce_comment_style_consistency ⟨some 5, none, []⟩ ["# this comment is long"] := by
  decide

/-!
Breadth-first structure of the walk: the traversal lists each level of
the tree in full before any node of the next level.
-/

theorem walkFrom_append : ∀ (q s : List PyNode),
    walkFrom (q ++ s) = q ++ walkFrom (s ++ catMap children q) := by
  intro q
  induction q with
  | nil => intro s; simp [catMap]
  | cons n q' ih =>
    intro s
    have e : (n :: q') ++ s = n :: (q' ++ s) := rfl
    rw [e, walkFrom_cons, List.append_assoc, ih (s ++ children n)]
    simp [catMap, List.append_assoc]

theorem walkFrom_level (q : List PyNode) :
    walkFrom q = q ++ walkFrom (catMap children q) := by
  have h := walkFrom_append q []
  simpa using h

/-- Nodes at depth k below the given roots. -/
def nthLevel : Nat → List PyNode → List PyNode
  | 0, q => q
  | k + 1, q => nthLevel k (catMap children q)

theorem nthLevel_catMap (k : Nat) : ∀ q : List PyNode,
    nthLevel k (catMap children q) = catMap children (nthLevel k q) := by
  induction k with
  | zero => intro q; rfl
  | succ k ih =>
    intro q
    show nthLevel k (catMap children (catMap children q)) =
      catMap children (nthLevel k (catMap children q))
    exact ih (catMap children q)

theorem walkFrom_upTo : ∀ (k : Nat) (q : List PyNode),
    walkFrom q = catMap (fun j => nthLevel j q) (List.range k) ++ walkFrom (nthLevel k q) := by
  intro k
  induction k with
  | zero => intro q; simp [List.range_zero, catMap, nthLevel]
  | succ k ih =>
    intro q
    rw [List.range_succ, catMap_append, ih q]
    rw [walkFrom_level (nthLevel k q), ← nthLevel_catMap k q]
    simp [catMap, List.append_assoc, nthLevel]

theorem szList_catMap_le : ∀ q : List PyNode, szList (catMap children q) ≤ szList q := by
  intro q
  induction q with
  | nil => simp [catMap, szList]
  | cons n ns ih =>
    have h1 := children_szLt n
    simp [catMap, szList_append, szList]
    omega

theorem szList_catMap_lt (n : PyNode) (ns : List PyNode) :
    szList (catMap children (n :: ns)) < szList (n :: ns) := by
  have h1 := children_szLt n
  have h2 := szList_catMap_le ns
  simp [catMap, szList_append, szList]
  omega

theorem nthLevel_nil_of_sz : ∀ (m : Nat) (q : List PyNode),
    szList q ≤ m → nthLevel m q = [] := by
  intro m
  induction m with
  | zero =>
    intro q h
    cases q with
    | nil => rfl
    | cons n ns =>
      exfalso
      have hp := szNode_pos n
      simp [szList] at h
      omega
  | succ m ih =>
    intro q h
    cases q with
    | nil =>
      show nthLevel m (catMap children []) = []
      exact ih [] (by simp [catMap, szList])
    | cons n ns =>
      show nthLevel m (catMap children (n :: ns)) = []
      apply ih
      have h1 := szList_catMap_lt n ns
      omega

theorem walkFrom_levels_all (q : List PyNode) :
    walkFrom q = catMap (fun j => nthLevel j q) (List.range (szList q)) := by
  have h := walkFrom_upTo (szList q) q
  rw [nthLevel_nil_of_sz (szList q) q (Nat.le_refl _), walkFrom_nil,
    List.append_nil] at h
  exact h

/-- A file with a definition nested in an earlier definition followed by
a later top-level definition, all undocumented. -/
def exTree : List PyNode :=
  [PyNode.functionDef "outer" 1 [PyNode.functionDef "inner" 2 [PyNode.other 3 []]],
   PyNode.functionDef "later" 4 [PyNode.other 5 []]]

/-- The physical lines of the file exTree parses from. -/
def exLines : List String :=
  ["def outer():", "    def inner():", "        pass", "def later():", "    pass"]

/-- The issues the detector reports for exTree: both top-level
definitions come before the nested one, so the line numbers are not
ascending. -/
def exOut : List Issue :=
  [(1, "function", missingFunMsg "outer"), (4, "function", missingFunMsg "later"),
   (2, "function", missingFunMsg "inner")]

/-- Claim C10: check_missing_comments emits its issues along the ast.walk
order, which lists every node of a nesting depth before any node of a
greater depth (the walk equals the concatenation of its levels), and the
order is a fixed function of the input; consequently the output for the
file with an undocumented nested definition between two undocumented
top-level ones is not sorted by line number. -/
theorem c10_bfs_order :
    (∀ (tree : List PyNode) (diskLines : List String),
       check_missing_comments tree diskLines = issuesAlongE diskLines (walkFrom tree)) ∧
    (∀ q : List PyNode,
       walkFrom q = catMap (fun j => nthLevel j q) (List.range (szList q))) ∧
    check_missing_comments exTree exLines = Except.ok exOut ∧
    ¬ List.Pairwise (fun a b : Issue => a.1 ≤ b.1) exOut := by
  refine ⟨fun _ _ => rfl, walkFrom_levels_all, ?_, ?_⟩
  · simp [check_missing_comments, exTree, exLines, walkFrom_cons, walkFrom_nil, children,
      issuesAlongE, nodeIssuesE, extract_docstring, exOut]
    rfl
  · decide
